import Mathlib

/-!
Verification of the rust-tracker task service against its specification.

The development shallowly embeds the core of the repository:
* the shared data model (`common/src/lib.rs`),
* the Task Store operations (`backend/src/database.rs`) over a store
  modelled as a list of rows, with the database clock and uuid generator
  passed explicitly,
* the HTTP-handler validation layer (`backend/src/handlers.rs`),
* the Sync Client's query-parameter serialization (`frontend/src/api.rs`),
* the board grouping function (`frontend/src/logic/task_list_logic.rs`),
* the optimistic drag-and-drop reconciler
  (`frontend/src/components/task_list.rs`, `frontend/src/pages/home.rs`).

Timestamps (`DateTime<Utc>`) are modelled as integers, `Uuid` as a natural
number.  The effects of the reactive frontend are modelled as the lists of
requests a handler dispatches.
-/

namespace RustTracker

/-- `TaskStatus` from `common/src/lib.rs` (default variant: `Todo`). -/
inductive TaskStatus where
  | Todo
  | InProgress
  | Completed
  | Backlog
deriving DecidableEq

/-- `TaskPriority` from `common/src/lib.rs` (default variant: `Medium`);
the derived `Ord` orders variants in declaration order
`Low < Medium < High < Urgent`. -/
inductive TaskPriority where
  | Low
  | Medium
  | High
  | Urgent
deriving DecidableEq

/-- Rank of a priority in the derived declaration order, used to state the
derived `Ord` of `TaskPriority`. -/
def TaskPriority.rank : TaskPriority → Nat
  | .Low => 0
  | .Medium => 1
  | .High => 2
  | .Urgent => 3

/-- `DateTime<Utc>` modelled as an integer timeline. -/
abbrev Timestamp := Int

/-- `Uuid` modelled as a natural number. -/
abbrev Uuid := Nat

/-- `Task` from `common/src/lib.rs`. -/
structure Task where
  id : Uuid
  title : String
  description : Option String
  status : TaskStatus
  priority : TaskPriority
  due_date : Option Timestamp
  created_at : Timestamp
  updated_at : Timestamp
deriving DecidableEq

/-- `CreateTaskRequest` from `common/src/lib.rs`. -/
structure CreateTaskRequest where
  title : String
  description : Option String
  priority : TaskPriority
  due_date : Option Timestamp
deriving DecidableEq

/-- `UpdateTaskRequest` from `common/src/lib.rs`: every field optional. -/
structure UpdateTaskRequest where
  title : Option String
  description : Option String
  status : Option TaskStatus
  priority : Option TaskPriority
  due_date : Option Timestamp
deriving DecidableEq

/-- `TaskFilter` from `common/src/lib.rs`. -/
structure TaskFilter where
  status : Option TaskStatus
  priority : Option TaskPriority
  due_before : Option Timestamp
  due_after : Option Timestamp
deriving DecidableEq

/-- `AppError` from `backend/src/error.rs` (the `Database` payload is kept
as its message string). -/
inductive AppError where
  | Database (msg : String)
  | TaskNotFound
  | InvalidInput (msg : String)
  | InternalError
deriving DecidableEq

/-- Rust `Option::is_none_or`. -/
def isNoneOr (p : α → Bool) : Option α → Bool
  | none => true
  | some a => p a

/-- Rust `Option::is_some_and`. -/
def isSomeAnd (p : α → Bool) : Option α → Bool
  | none => false
  | some a => p a

/-- The per-task filter predicate inside `Database::get_tasks`
(`backend/src/database.rs`, lines 81-92): the four predicate components
combined with `&&`. -/
def taskMatches (filter : TaskFilter) (task : Task) : Bool :=
  let status_match := isNoneOr (fun s => decide (task.status = s)) filter.status
  let priority_match := isNoneOr (fun p => decide (task.priority = p)) filter.priority
  let due_before_match :=
    isNoneOr (fun d => isSomeAnd (fun due => decide (due < d)) task.due_date)
      filter.due_before
  let due_after_match :=
    isNoneOr (fun d => isSomeAnd (fun due => decide (due > d)) task.due_date)
      filter.due_after
  status_match && priority_match && due_before_match && due_after_match

/-- `ORDER BY created_at DESC` of the `SELECT` in `Database::get_tasks`. -/
def orderByCreatedAtDesc (rows : List Task) : List Task :=
  rows.mergeSort (fun a b => decide (b.created_at ≤ a.created_at))

/-- `Database::get_tasks`: fetch all rows ordered by `created_at`
descending, then apply the filter in Rust when one is given. -/
def get_tasks (store : List Task) (filter : Option TaskFilter) : List Task :=
  let tasks := orderByCreatedAtDesc store
  match filter with
  | some f => tasks.filter (fun task => taskMatches f task)
  | none => tasks

/-- `Database::get_task_by_id`: `fetch_optional` on `WHERE id = $1`
returns the first matching row; no row is `TaskNotFound`. -/
def get_task_by_id (store : List Task) (id : Uuid) : Except AppError Task :=
  match store.find? (fun t => decide (t.id = id)) with
  | some row => Except.ok row
  | none => Except.error AppError.TaskNotFound

/-- The `COALESCE` merge of `Database::update_task` applied to one row:
each present request field overwrites, each absent field keeps the stored
value, and `updated_at` is set to the bound `now`. -/
def applyUpdate (t : Task) (r : UpdateTaskRequest) (now : Timestamp) : Task :=
  { t with
    title := r.title.getD t.title
    description := match r.description with
      | some d => some d
      | none => t.description
    status := r.status.getD t.status
    priority := r.priority.getD t.priority
    due_date := match r.due_date with
      | some d => some d
      | none => t.due_date
    updated_at := now }

/-- `Database::update_task`: first `get_task_by_id` (so a missing id is
`TaskNotFound`), then `UPDATE ... WHERE id = $1` merging with `COALESCE`,
returning the updated row. -/
def update_task (store : List Task) (id : Uuid) (request : UpdateTaskRequest)
    (now : Timestamp) : Except AppError (List Task × Task) :=
  match store.find? (fun t => decide (t.id = id)) with
  | none => Except.error AppError.TaskNotFound
  | some existing =>
      let store' := store.map fun t =>
        if t.id = id then applyUpdate t request now else t
      Except.ok (store', applyUpdate existing request now)

/-- `Database::delete_task`: `DELETE FROM tasks WHERE id = $1`; if
`rows_affected` is zero the call fails with `TaskNotFound`. -/
def delete_task (store : List Task) (id : Uuid) : Except AppError (List Task) :=
  let rows_affected := (store.filter (fun t => decide (t.id = id))).length
  if rows_affected = 0 then Except.error AppError.TaskNotFound
  else Except.ok (store.filter (fun t => !decide (t.id = id)))

/-- `Database::create_task`: inserts one row with the freshly generated id,
`status = Todo` and `created_at = updated_at = now`, returning it. -/
def create_task (store : List Task) (request : CreateTaskRequest) (id : Uuid)
    (now : Timestamp) : List Task × Task :=
  let task : Task :=
    { id := id
      title := request.title
      description := request.description
      status := TaskStatus.Todo
      priority := request.priority
      due_date := request.due_date
      created_at := now
      updated_at := now }
  (store ++ [task], task)

/-- Rust `char::is_whitespace` (the Unicode White_Space code points). -/
def isRustWhitespace (c : Char) : Bool :=
  [9, 10, 11, 12, 13, 32, 133, 160, 5760, 8192, 8193, 8194, 8195, 8196,
    8197, 8198, 8199, 8200, 8201, 8202, 8232, 8233, 8239, 8287,
    12288].contains c.toNat

/-- Rust `str::trim` on the character list of a string. -/
def rustTrim (s : String) : List Char :=
  ((s.toList.dropWhile isRustWhitespace).reverse.dropWhile isRustWhitespace).reverse

/-- The guard `request.title.trim().is_empty()` of the `create_task`
handler (`backend/src/handlers.rs`, line 31). -/
def titleTrimIsEmpty (s : String) : Bool :=
  (rustTrim s).isEmpty

/-- `create_task` handler (`backend/src/handlers.rs`): rejects an
empty-after-trim title with `InvalidInput` before touching the store;
otherwise inserts through `Database::create_task`.  The resulting store is
returned alongside the outcome so that the absence of a store effect on
failure is expressible. -/
def create_task_handler (store : List Task) (request : CreateTaskRequest)
    (id : Uuid) (now : Timestamp) : List Task × Except AppError Task :=
  if titleTrimIsEmpty request.title then
    (store, Except.error (AppError.InvalidInput "Title cannot be empty"))
  else
    let created := create_task store request id now
    (created.1, Except.ok created.2)

/-- Comparator `b.priority.cmp(&a.priority)` of
`filter_and_group_tasks` as a boolean `le`: descending by the derived
priority order. -/
def priorityDescLe (a b : Task) : Bool :=
  decide (b.priority.rank ≤ a.priority.rank)

/-- `tasks_list.sort_by(|a, b| b.priority.cmp(&a.priority))`: a stable
sort descending by priority. -/
def sortByPriorityDesc (l : List Task) : List Task :=
  l.mergeSort priorityDescLe

/-- The per-task predicate of the `filter` pass in
`filter_and_group_tasks` (`frontend/src/logic/task_list_logic.rs`, lines
11-16): the optional priority filter matches and the status is not
`Backlog`. -/
def boardFilterPred (priority_filter : Option TaskPriority) (task : Task) : Bool :=
  (priority_filter.isNone || decide (priority_filter = some task.priority))
    && !decide (task.status = TaskStatus.Backlog)

/-- The group pushed under key `status` by the
`grouped.entry(task.status).or_default().push(task)` loop: the in-order
sublist of the filtered tasks whose status is `status`, before sorting. -/
def boardGroupRaw (tasks : List Task) (priority_filter : Option TaskPriority)
    (status : TaskStatus) : List Task :=
  (tasks.filter (boardFilterPred priority_filter)).filter fun t =>
    decide (t.status = status)

/-- `filter_and_group_tasks` from
`frontend/src/logic/task_list_logic.rs`.  The returned `HashMap` is
modelled as the function from a status key to the entry stored under it
(`none` when the key is absent): a key is present when the grouping loop
pushed at least one task under it or when it is one of `Todo`,
`InProgress`, `Completed` (forced present via `entry(..).or_default()`),
and each present group is sorted by priority descending. -/
def filter_and_group_tasks (tasks : List Task)
    (priority_filter : Option TaskPriority) : TaskStatus → Option (List Task) :=
  fun status =>
    if status = TaskStatus.Todo ∨ status = TaskStatus.InProgress
        ∨ status = TaskStatus.Completed then
      some (sortByPriorityDesc (boardGroupRaw tasks priority_filter status))
    else if (boardGroupRaw tasks priority_filter status).isEmpty then none
    else some (sortByPriorityDesc (boardGroupRaw tasks priority_filter status))

/-- The body dispatched by `handle_drop`
(`frontend/src/components/task_list.rs`, lines 61-67): only `status` is
present. -/
def mk_status_request (status : TaskStatus) : UpdateTaskRequest :=
  { title := none
    description := none
    status := some status
    priority := none
    due_date := none }

/-- The optimistic mutation of `handle_drop`:
`tasks.iter_mut().find(|t| t.id == task_id)` updates the status of the
first entry with the dragged id, or leaves the list untouched when no
entry matches. -/
def optimistic_apply (tasks : List Task) (status : TaskStatus)
    (task_id : Uuid) : List Task :=
  match tasks with
  | [] => []
  | t :: rest =>
      if t.id = task_id then { t with status := status } :: rest
      else t :: optimistic_apply rest status task_id

/-- `handle_drop` (`frontend/src/components/task_list.rs`, lines 45-69):
first the optimistic local mutation, then exactly one dispatched update
request whose body is `mk_status_request status`.  The second component
collects the `(id, request)` pairs handed to `update_task_action.dispatch`. -/
def handle_drop (tasks : List Task) (status : TaskStatus) (task_id : Uuid) :
    List Task × List (Uuid × UpdateTaskRequest) :=
  (optimistic_apply tasks status task_id, [(task_id, mk_status_request status)])

/-- `refresh_tasks` (`frontend/src/pages/home.rs`, lines 20-35) as the
list of fetch requests it dispatches: when the debounce flag is clear it
dispatches exactly one `api::fetch_tasks(None)` (the `load_tasks` action
always fetches with filter `None`); while the debounce window is active it
dispatches nothing. -/
def refresh_tasks (refresh_debounce : Bool) : List (Option TaskFilter) :=
  if refresh_debounce then [] else [none]

/-- The revert effect of `TaskList`
(`frontend/src/components/task_list.rs`, lines 19-38) applied to a
resolved update result: the first component is the list of update
requests it re-dispatches (always empty — a failure is never retried),
the second the list of fetch requests it triggers (`_refresh_tasks()` on
failure only). -/
def revert_effect (result : Except String Task) (refresh_debounce : Bool) :
    List (Uuid × UpdateTaskRequest) × List (Option TaskFilter) :=
  match result with
  | Except.ok _ => ([], [])
  | Except.error _ => ([], refresh_tasks refresh_debounce)

/-- The `load_tasks` result effect (`frontend/src/pages/home.rs`, lines
43-56): on success `set_tasks.set(loaded_tasks)` replaces the whole local
list with the fetched one. -/
def apply_load_result (loaded : List Task) (_cache : List Task) : List Task :=
  loaded

/-- `TaskCategory`, referenced by `backend/src/handlers.rs` and
`frontend/src/api.rs` and exercised by `common/src/tests/data_structures.rs`
(variants `Work`, `Personal`, `Shopping`, `Health`, `Other`, default
`Other`); the `common` crate itself no longer declares it. -/
inductive TaskCategory where
  | Work
  | Personal
  | Shopping
  | Health
  | Other
deriving DecidableEq

/-- The `{:?}` (and serde) rendering of a `TaskStatus` variant. -/
def statusReprName : TaskStatus → String
  | .Todo => "Todo"
  | .InProgress => "InProgress"
  | .Completed => "Completed"
  | .Backlog => "Backlog"

/-- The `{:?}` (and serde) rendering of a `TaskPriority` variant. -/
def priorityReprName : TaskPriority → String
  | .Low => "Low"
  | .Medium => "Medium"
  | .High => "High"
  | .Urgent => "Urgent"

/-- The timestamp rendering `to_rfc3339` abstracted as a decimal string of
the model timestamp (its exact text plays no role in any claim). -/
def timestampWire (t : Timestamp) : String :=
  toString t

/-- The query parameters built by `fetch_tasks`
(`frontend/src/api.rs`, lines 15-38), as `(name, value)` pairs in push
order.  The priority predicate is pushed under the parameter name
`category`: line 22 reads a field `category` that `common::TaskFilter`
does not declare (the crate declares `priority`), and the unit test
duplicating this logic (`frontend/src/tests/api_tests.rs`, lines 85-109)
reads `filter.priority` and serializes it as `category={:?}`. -/
def fetch_tasks_params : Option TaskFilter → List (String × String)
  | none => []
  | some filter =>
      (match filter.status with
        | some status => [("status", statusReprName status)]
        | none => []) ++
      (match filter.priority with
        | some category => [("category", priorityReprName category)]
        | none => []) ++
      (match filter.due_before with
        | some due_before => [("due_before", timestampWire due_before)]
        | none => []) ++
      (match filter.due_after with
        | some due_after => [("due_after", timestampWire due_after)]
        | none => [])

/-- Serde deserialization of a `TaskCategory` variant name, as declared by
the `category: Option<common::TaskCategory>` field of `TaskFilterQuery`
(`backend/src/handlers.rs`, line 59): an unrecognized name is a hard
failure. -/
def parseTaskCategory : String → Option TaskCategory
  | "Work" => some TaskCategory.Work
  | "Personal" => some TaskCategory.Personal
  | "Shopping" => some TaskCategory.Shopping
  | "Health" => some TaskCategory.Health
  | "Other" => some TaskCategory.Other
  | _ => none

/-- The all-absent filter. -/
def emptyFilter : TaskFilter :=
  { status := none, priority := none, due_before := none, due_after := none }

/-- The filter carrying only the priority-equality predicate `High`. -/
def priorityHighFilter : TaskFilter :=
  { status := none, priority := some TaskPriority.High, due_before := none,
    due_after := none }

/-- A sample stored task used by concrete witnesses. -/
def sampleTask : Task :=
  { id := 1
    title := "Write spec"
    description := none
    status := TaskStatus.Todo
    priority := TaskPriority.High
    due_date := none
    created_at := 0
    updated_at := 0 }

theorem optimistic_apply_not_mem (tasks : List Task) (status : TaskStatus)
    (task_id : Uuid) (h : ∀ t ∈ tasks, t.id ≠ task_id) :
    optimistic_apply tasks status task_id = tasks := by
  induction tasks with
  | nil => rfl
  | cons a l ih =>
      have ha : a.id ≠ task_id := h a (List.mem_cons_self a l)
      simp [optimistic_apply, ha, ih fun t ht => h t (List.mem_cons_of_mem a ht)]

/-- Claim C7: `delete` removes exactly the rows matching the id when one
exists, fails with `TaskNotFound` leaving no effect when none matches, and
is not idempotent: a second delete of the same id fails with
`TaskNotFound`. -/
theorem delete_semantics (store : List Task) (id : Uuid) :
    ((∃ t ∈ store, t.id = id) →
      delete_task store id = Except.ok (store.filter fun t => !decide (t.id = id)))
    ∧ ((∀ t ∈ store, t.id ≠ id) →
      delete_task store id = Except.error AppError.TaskNotFound)
    ∧ (∀ store', delete_task store id = Except.ok store' →
      delete_task store' id = Except.error AppError.TaskNotFound) := by
  refine ⟨?_, ?_, ?_⟩
  · rintro ⟨t, ht, hid⟩
    have hmem : t ∈ store.filter (fun t => decide (t.id = id)) :=
      List.mem_filter.mpr ⟨ht, by simp [hid]⟩
    have hne : (store.filter (fun t => decide (t.id = id))).length ≠ 0 := by
      intro h0
      rw [List.length_eq_zero] at h0
      rw [h0] at hmem
      exact (List.not_mem_nil t) hmem
    simp [delete_task, hne]
  · intro h
    have h0 : store.filter (fun t => decide (t.id = id)) = [] :=
      List.filter_eq_nil_iff.mpr fun a ha => by simpa using h a ha
    simp [delete_task, h0]
  · intro store' hok
    by_cases hz : (store.filter (fun t => decide (t.id = id))).length = 0
    · simp [delete_task, hz] at hok
    · simp only [delete_task, hz, if_neg hz] at hok
      have hstore' : store' = store.filter (fun t => !decide (t.id = id)) := by
        cases hok
        rfl
      subst hstore'
      have h0 : (store.filter (fun t => !decide (t.id = id))).filter
          (fun t => decide (t.id = id)) = [] := by
        rw [List.filter_eq_nil_iff]
        intro a ha
        have := (List.mem_filter.mp ha).2
        simpa using this
      simp [delete_task, h0]

/-- Witness for C7 at a concrete store: deleting the only row succeeds and
removes it, and deleting again fails with `TaskNotFound`. -/
theorem delete_semantics_witness :
    delete_task [sampleTask] 1 = Except.ok ([sampleTask].filter fun t => !decide (t.id = 1))
    ∧ delete_task [] 1 = Except.error AppError.TaskNotFound := by
  refine ⟨(delete_semantics [sampleTask] 1).1 ⟨sampleTask, by decide, by decide⟩, ?_⟩
  exact (delete_semantics [] 1).2.1 (by intro t ht; cases ht)

/-- Claim C8: listing with the all-absent filter returns exactly the same
list as listing with no filter, and the unfiltered result is a
permutation of the store ordered by `created_at` descending. -/
theorem list_empty_filter_eq_unfiltered (store : List Task) :
    get_tasks store (some emptyFilter) = get_tasks store none
    ∧ (get_tasks store none).Perm store
    ∧ (get_tasks store none).Pairwise (fun a b => b.created_at ≤ a.created_at) := by
  refine ⟨?_, ?_, ?_⟩
  · simp [get_tasks, emptyFilter, taskMatches, isNoneOr]
  · simpa [get_tasks, orderByCreatedAtDesc] using
      List.mergeSort_perm store (fun a b => decide (b.created_at ≤ a.created_at))
  · have hs := @List.sorted_mergeSort Task
      (fun a b : Task => decide (b.created_at ≤ a.created_at))
      (fun a b c hab hbc => by
        simp only [decide_eq_true_eq] at *
        exact le_trans hbc hab)
      (fun a b => by
        simp only [Bool.or_eq_true, decide_eq_true_eq]
        exact le_total b.created_at a.created_at)
      store
    have : (store.mergeSort fun a b => decide (b.created_at ≤ a.created_at)).Pairwise
        (fun a b : Task => b.created_at ≤ a.created_at) :=
      hs.imp fun h => of_decide_eq_true h
    simpa [get_tasks, orderByCreatedAtDesc] using this

/-- Claim C1 (divergence witness): for the filter carrying only a
priority-equality predicate, the Sync Client serializes the single query
parameter `category=High` — there is no parameter named `priority` — and
the server-side `TaskFilterQuery` deserialization of priority variant
names as `TaskCategory` fails hard, so the predicate never reaches the
store. -/
theorem client_priority_param_divergence :
    fetch_tasks_params (some priorityHighFilter) = [("category", "High")]
    ∧ (fetch_tasks_params (some priorityHighFilter)).map Prod.fst = ["category"]
    ∧ parseTaskCategory "High" = none
    ∧ parseTaskCategory "Low" = none
    ∧ parseTaskCategory "Medium" = none
    ∧ parseTaskCategory "Urgent" = none :=
  ⟨rfl, rfl, rfl, rfl, rfl, rfl⟩

/-- Claim C4 (counterexample): after a failed optimistic update with the
active client filter selecting priority `High`, the dispatched re-fetch
carries filter `None` — it does not include the predicates of the
currently active filter. -/
theorem revert_refetch_ignores_active_filter :
    (revert_effect (Except.error "Request failed") false).2 = [(none : Option TaskFilter)]
    ∧ (none : Option TaskFilter) ≠ some priorityHighFilter :=
  ⟨rfl, by simp⟩

/-- Claim C4 (amended): a failed optimistic update re-dispatches no update
request (no retry), triggers exactly one re-fetch with no filter at all
unless the refresh debounce window is active (in which case no new fetch
is dispatched), a successful update triggers nothing, and applying a fetch
result replaces the local list with the server's list. -/
theorem revert_via_unfiltered_refresh (e : String) (t : Task)
    (debounce : Bool) (loaded stale : List Task) :
    (revert_effect (Except.error e) debounce).1 = []
    ∧ (revert_effect (Except.error e) false).2 = [none]
    ∧ (revert_effect (Except.error e) true).2 = []
    ∧ revert_effect (Except.ok t) debounce = ([], [])
    ∧ apply_load_result loaded stale = loaded :=
  ⟨rfl, rfl, rfl, rfl, rfl⟩

/-- Claim C10: a drop whose dragged id matches no local task leaves the
local list unchanged and still dispatches exactly one update request with
body `{status: S}` for that id. -/
theorem drop_unknown_id_frame (tasks : List Task) (status : TaskStatus)
    (task_id : Uuid) (h : ∀ t ∈ tasks, t.id ≠ task_id) :
    handle_drop tasks status task_id = (tasks, [(task_id, mk_status_request status)])
    ∧ mk_status_request status =
        { title := none, description := none, status := some status,
          priority := none, due_date := none } := by
  refine ⟨?_, rfl⟩
  simp [handle_drop, optimistic_apply_not_mem tasks status task_id h]

/-- Witness for C10: dropping an id absent from a concrete one-task list
leaves the list unchanged and dispatches the one status-only request. -/
theorem drop_unknown_id_frame_witness :
    handle_drop [sampleTask] TaskStatus.Completed 2 =
      ([sampleTask], [(2, mk_status_request TaskStatus.Completed)])
    ∧ mk_status_request TaskStatus.Completed =
        { title := none, description := none, status := some TaskStatus.Completed,
          priority := none, due_date := none } :=
  drop_unknown_id_frame [sampleTask] TaskStatus.Completed 2 (by decide)

/-- The all-absent update request. -/
def emptyUpdate : UpdateTaskRequest :=
  { title := none, description := none, status := none, priority := none,
    due_date := none }

/-- Claim C2: a successful update overwrites exactly the present request
fields, keeps every absent field (so a stored `due_date` is never
cleared), stamps `updated_at := now`, and for the all-absent request
changes nothing but `updated_at`. -/
theorem update_merge_semantics (store : List Task) (id : Uuid)
    (r : UpdateTaskRequest) (now : Timestamp) (old : Task)
    (hfind : store.find? (fun t => decide (t.id = id)) = some old) :
    update_task store id r now =
      Except.ok (store.map (fun t => if t.id = id then applyUpdate t r now else t),
        applyUpdate old r now)
    ∧ (applyUpdate old r now).id = old.id
    ∧ (applyUpdate old r now).created_at = old.created_at
    ∧ (applyUpdate old r now).updated_at = now
    ∧ (r.title = none → (applyUpdate old r now).title = old.title)
    ∧ (∀ v, r.title = some v → (applyUpdate old r now).title = v)
    ∧ (r.description = none → (applyUpdate old r now).description = old.description)
    ∧ (∀ v, r.description = some v → (applyUpdate old r now).description = some v)
    ∧ (r.status = none → (applyUpdate old r now).status = old.status)
    ∧ (∀ v, r.status = some v → (applyUpdate old r now).status = v)
    ∧ (r.priority = none → (applyUpdate old r now).priority = old.priority)
    ∧ (∀ v, r.priority = some v → (applyUpdate old r now).priority = v)
    ∧ (r.due_date = none → (applyUpdate old r now).due_date = old.due_date)
    ∧ (∀ v, r.due_date = some v → (applyUpdate old r now).due_date = some v)
    ∧ ((applyUpdate old r now).due_date = none → old.due_date = none)
    ∧ (r = emptyUpdate → applyUpdate old r now = { old with updated_at := now })
    ∧ (old.updated_at < now → old.updated_at < (applyUpdate old r now).updated_at) := by
  refine ⟨by simp [update_task, hfind], rfl, rfl, rfl, ?_, ?_, ?_, ?_, ?_, ?_, ?_, ?_,
    ?_, ?_, ?_, ?_, ?_⟩
  · intro h; simp [applyUpdate, h]
  · intro v h; simp [applyUpdate, h]
  · intro h; simp [applyUpdate, h]
  · intro v h; simp [applyUpdate, h]
  · intro h; simp [applyUpdate, h]
  · intro v h; simp [applyUpdate, h]
  · intro h; simp [applyUpdate, h]
  · intro v h; simp [applyUpdate, h]
  · intro h; simp [applyUpdate, h]
  · intro v h; simp [applyUpdate, h]
  · intro h
    rcases hr : r.due_date with _ | d
    · simpa [applyUpdate, hr] using h
    · simp [applyUpdate, hr] at h
  · intro h
    subst h
    simp [applyUpdate, emptyUpdate]
  · intro h
    simpa [applyUpdate] using h

/-- Witness for C2: updating the sample store with the all-absent request
succeeds, only `updated_at` changes, and it increases strictly. -/
theorem update_merge_semantics_witness :
    update_task [sampleTask] 1 emptyUpdate 5 =
      Except.ok ([sampleTask].map
        (fun t => if t.id = 1 then applyUpdate t emptyUpdate 5 else t),
        applyUpdate sampleTask emptyUpdate 5)
    ∧ applyUpdate sampleTask emptyUpdate 5 = { sampleTask with updated_at := 5 }
    ∧ sampleTask.updated_at < (applyUpdate sampleTask emptyUpdate 5).updated_at := by
  have h := update_merge_semantics [sampleTask] 1 emptyUpdate 5 sampleTask (by decide)
  exact ⟨h.1, h.2.2.2.2.2.2.2.2.2.2.2.2.2.2.2.1 rfl,
    h.2.2.2.2.2.2.2.2.2.2.2.2.2.2.2.2 (by decide)⟩

theorem forall_mem_dropWhile_iff {α : Type _} {p : α → Bool} {l : List α} :
    (∀ x ∈ l.dropWhile p, p x = true) ↔ ∀ x ∈ l, p x = true := by
  induction l with
  | nil => simp
  | cons a l ih =>
      by_cases hpa : p a = true
      · rw [List.dropWhile_cons, if_pos hpa]
        constructor
        · intro h x hx
          rcases List.mem_cons.mp hx with rfl | hx'
          · exact hpa
          · exact ih.mp h x hx'
        · intro h
          exact ih.mpr fun x hx => h x (List.mem_cons_of_mem a hx)
      · rw [List.dropWhile_cons, if_neg hpa]

theorem titleTrimIsEmpty_iff (s : String) :
    titleTrimIsEmpty s = true ↔ s.toList.all isRustWhitespace = true := by
  rw [titleTrimIsEmpty, List.isEmpty_iff, rustTrim, List.reverse_eq_nil_iff,
    List.dropWhile_eq_nil_iff, List.all_eq_true]
  constructor
  · intro h
    exact forall_mem_dropWhile_iff.mp fun x hx => h x (List.mem_reverse.mpr hx)
  · intro h x hx
    exact forall_mem_dropWhile_iff.mpr h x (List.mem_reverse.mp hx)

/-- Claim C6: creation fails with `InvalidInput` exactly when the title is
empty or whitespace-only after trimming, leaving the store untouched; on
success the new task is appended with status `Todo`,
`created_at = updated_at = now`, the freshly generated id, and the request
fields. -/
theorem create_validation (store : List Task) (request : CreateTaskRequest)
    (id : Uuid) (now : Timestamp) :
    (request.title.toList.all isRustWhitespace = true →
      create_task_handler store request id now =
        (store, Except.error (AppError.InvalidInput "Title cannot be empty")))
    ∧ (request.title.toList.all isRustWhitespace = false →
      create_task_handler store request id now =
        (store ++ [(create_task store request id now).2],
          Except.ok (create_task store request id now).2)
      ∧ (create_task store request id now).2.status = TaskStatus.Todo
      ∧ (create_task store request id now).2.created_at = now
      ∧ (create_task store request id now).2.updated_at = now
      ∧ (create_task store request id now).2.id = id
      ∧ (create_task store request id now).2.title = request.title
      ∧ (create_task store request id now).2.description = request.description
      ∧ (create_task store request id now).2.priority = request.priority
      ∧ (create_task store request id now).2.due_date = request.due_date
      ∧ ((∀ t ∈ store, t.id ≠ id) →
          ∀ t ∈ store, t.id ≠ (create_task store request id now).2.id)) := by
  constructor
  · intro h
    have he : titleTrimIsEmpty request.title = true :=
      (titleTrimIsEmpty_iff request.title).mpr h
    simp [create_task_handler, he]
  · intro h
    have he : titleTrimIsEmpty request.title = false := by
      rcases Bool.eq_false_or_eq_true (titleTrimIsEmpty request.title) with ht | hf
      · rw [(titleTrimIsEmpty_iff request.title).mp ht] at h
        cases h
      · exact hf
    refine ⟨by simp [create_task_handler, he, create_task], rfl, rfl, rfl, rfl, rfl,
      rfl, rfl, rfl, ?_⟩
    intro hfresh t ht
    exact hfresh t ht

/-- Witness for C6: a whitespace-only title is rejected with the store
untouched, and a non-blank title creates a `Todo` task. -/
theorem create_validation_witness :
    create_task_handler []
      { title := " ", description := none, priority := TaskPriority.Medium,
        due_date := none } 3 7 =
      ([], Except.error (AppError.InvalidInput "Title cannot be empty"))
    ∧ (create_task []
        { title := "Write spec", description := none,
          priority := TaskPriority.Medium, due_date := none } 3 7).2.status =
      TaskStatus.Todo := by
  constructor
  · exact (create_validation []
      { title := " ", description := none, priority := TaskPriority.Medium,
        due_date := none } 3 7).1 (by decide)
  · exact ((create_validation []
      { title := "Write spec", description := none,
        priority := TaskPriority.Medium, due_date := none } 3 7).2 (by decide)).2.1

theorem isNoneOr_eq_true {α : Type _} {p : α → Bool} {o : Option α} :
    isNoneOr p o = true ↔ ∀ a, o = some a → p a = true := by
  cases o <;> simp [isNoneOr]

theorem isSomeAnd_eq_true {α : Type _} {p : α → Bool} {o : Option α} :
    isSomeAnd p o = true ↔ ∃ a, o = some a ∧ p a = true := by
  cases o <;> simp [isSomeAnd]

/-- The filter with only a `due_before` bound. -/
def dueBeforeFilter : TaskFilter :=
  { status := none, priority := none, due_before := some 10, due_after := none }

/-- Claim C5: the filter predicate holds exactly when every present
predicate holds, with `due_before`/`due_after` strict on a present
`due_date`; a task without `due_date` never passes a filter with a date
bound; and membership in the filtered listing is membership in the store
plus the predicate. -/
theorem filter_predicate_semantics (store : List Task) (f : TaskFilter) (t : Task) :
    (taskMatches f t = true ↔
      ((∀ s, f.status = some s → t.status = s)
        ∧ (∀ p, f.priority = some p → t.priority = p)
        ∧ (∀ b, f.due_before = some b → ∃ d, t.due_date = some d ∧ d < b)
        ∧ (∀ a, f.due_after = some a → ∃ d, t.due_date = some d ∧ a < d)))
    ∧ (t.due_date = none → f.due_before ≠ none ∨ f.due_after ≠ none →
        t ∉ get_tasks store (some f))
    ∧ (t ∈ get_tasks store (some f) ↔ t ∈ store ∧ taskMatches f t = true) := by
  have hmatch : taskMatches f t = true ↔
      ((∀ s, f.status = some s → t.status = s)
        ∧ (∀ p, f.priority = some p → t.priority = p)
        ∧ (∀ b, f.due_before = some b → ∃ d, t.due_date = some d ∧ d < b)
        ∧ (∀ a, f.due_after = some a → ∃ d, t.due_date = some d ∧ a < d)) := by
    simp only [taskMatches, Bool.and_eq_true, isNoneOr_eq_true, isSomeAnd_eq_true,
      decide_eq_true_eq, gt_iff_lt]
    tauto
  have hmem : t ∈ get_tasks store (some f) ↔ t ∈ store ∧ taskMatches f t = true := by
    simp [get_tasks, orderByCreatedAtDesc, List.mem_filter, List.mem_mergeSort]
  refine ⟨hmatch, ?_, hmem⟩
  intro hdd hbound hmemf
  have hm : taskMatches f t = true := (hmem.mp hmemf).2
  rcases hbound with hb | ha
  · obtain ⟨b, hb'⟩ := Option.ne_none_iff_exists'.mp hb
    obtain ⟨d, hd, _⟩ := (hmatch.mp hm).2.2.1 b hb'
    rw [hdd] at hd
    cases hd
  · obtain ⟨a, ha'⟩ := Option.ne_none_iff_exists'.mp ha
    obtain ⟨d, hd, _⟩ := (hmatch.mp hm).2.2.2 a ha'
    rw [hdd] at hd
    cases hd

/-- Witness for C5: the sample task (no `due_date`) is excluded by a
filter with a `due_before` bound even though it is in the store. -/
theorem filter_predicate_semantics_witness :
    sampleTask ∉ get_tasks [sampleTask] (some dueBeforeFilter) :=
  (filter_predicate_semantics [sampleTask] dueBeforeFilter sampleTask).2.1 rfl
    (Or.inl (by decide))

theorem map_status_ite_of_no_match (l : List Task) (status : TaskStatus)
    (task_id : Uuid) (h : ∀ u ∈ l, u.id ≠ task_id) :
    l.map (fun u => if u.id = task_id then { u with status := status } else u) = l := by
  rw [List.map_congr_left (g := id) fun u hu => by simp [h u hu], List.map_id]

theorem optimistic_apply_eq_map (tasks : List Task) (status : TaskStatus)
    (task_id : Uuid) (hids : (tasks.map Task.id).Nodup) :
    optimistic_apply tasks status task_id =
      tasks.map fun u => if u.id = task_id then { u with status := status } else u := by
  induction tasks with
  | nil => rfl
  | cons a l ih =>
      rw [List.map_cons, List.nodup_cons] at hids
      by_cases ha : a.id = task_id
      · have hnone : ∀ u ∈ l, u.id ≠ task_id := by
          intro u hu hc
          exact hids.1 (by rw [ha, ← hc]; exact List.mem_map_of_mem Task.id hu)
        simp [optimistic_apply, ha, map_status_ite_of_no_match l status task_id hnone]
      · simp [optimistic_apply, ha, ih hids.2]

/-- Claim C3: a drop first applies the status change to the local entry
with the dragged id (every other entry untouched), then dispatches exactly
one update request whose body carries only the new status. -/
theorem drop_optimistic_then_single_dispatch (tasks : List Task)
    (status : TaskStatus) (task_id : Uuid) (t : Task)
    (hids : (tasks.map Task.id).Nodup) (hmem : t ∈ tasks) (hid : t.id = task_id) :
    (handle_drop tasks status task_id).2 = [(task_id, mk_status_request status)]
    ∧ mk_status_request status =
        { title := none, description := none, status := some status,
          priority := none, due_date := none }
    ∧ (handle_drop tasks status task_id).1 =
        tasks.map (fun u => if u.id = task_id then { u with status := status } else u)
    ∧ { t with status := status } ∈ (handle_drop tasks status task_id).1
    ∧ (∀ u ∈ tasks, u.id ≠ task_id → u ∈ (handle_drop tasks status task_id).1) := by
  have hmap := optimistic_apply_eq_map tasks status task_id hids
  refine ⟨rfl, rfl, hmap, ?_, ?_⟩
  · rw [show (handle_drop tasks status task_id).1 = optimistic_apply tasks status task_id
      from rfl, hmap]
    have := List.mem_map_of_mem
      (fun u => if u.id = task_id then { u with status := status } else u) hmem
    simpa [hid] using this
  · intro u hu hne
    rw [show (handle_drop tasks status task_id).1 = optimistic_apply tasks status task_id
      from rfl, hmap]
    have := List.mem_map_of_mem
      (fun u => if u.id = task_id then { u with status := status } else u) hu
    simpa [hne] using this

/-- Witness for C3: dropping the sample task onto `InProgress` updates it
locally and dispatches the single status-only request. -/
theorem drop_optimistic_then_single_dispatch_witness :
    (handle_drop [sampleTask] TaskStatus.InProgress 1).2 =
      [(1, mk_status_request TaskStatus.InProgress)]
    ∧ { sampleTask with status := TaskStatus.InProgress } ∈
        (handle_drop [sampleTask] TaskStatus.InProgress 1).1 := by
  have h := drop_optimistic_then_single_dispatch [sampleTask] TaskStatus.InProgress 1
    sampleTask (by decide) (by decide) (by decide)
  exact ⟨h.1, h.2.2.2.1⟩

theorem sortByPriorityDesc_pairwise (l : List Task) :
    (sortByPriorityDesc l).Pairwise fun a b => b.priority.rank ≤ a.priority.rank := by
  have hs := @List.sorted_mergeSort Task priorityDescLe
    (fun a b c hab hbc => by
      simp only [priorityDescLe, decide_eq_true_eq] at *
      exact le_trans hbc hab)
    (fun a b => by
      simp only [priorityDescLe, Bool.or_eq_true, decide_eq_true_eq]
      exact le_total b.priority.rank a.priority.rank)
    l
  exact hs.imp fun h => by simpa [priorityDescLe] using h

theorem some_group_eq (tasks : List Task) (pf : Option TaskPriority)
    (s : TaskStatus) (l : List Task)
    (hl : filter_and_group_tasks tasks pf s = some l) :
    l = sortByPriorityDesc (boardGroupRaw tasks pf s) := by
  unfold filter_and_group_tasks at hl
  split at hl
  · exact (Option.some.inj hl).symm
  · split at hl
    · cases hl
    · exact (Option.some.inj hl).symm

/-- Claim C9: for every task list and every optional priority filter, the
board grouping has no `Backlog` key, no task with status `Backlog` appears
in any group, the `Todo`, `InProgress` and `Completed` keys are always
present, every group is sorted by priority descending, and every
non-`Backlog` task matching the filter appears exactly once, under the
key of its own status and under no other key. -/
theorem board_grouping (tasks : List Task) (pf : Option TaskPriority) :
    filter_and_group_tasks tasks pf TaskStatus.Backlog = none
    ∧ (filter_and_group_tasks tasks pf TaskStatus.Todo).isSome = true
    ∧ (filter_and_group_tasks tasks pf TaskStatus.InProgress).isSome = true
    ∧ (filter_and_group_tasks tasks pf TaskStatus.Completed).isSome = true
    ∧ (∀ s l, filter_and_group_tasks tasks pf s = some l →
        l.Pairwise fun a b => b.priority.rank ≤ a.priority.rank)
    ∧ (∀ t : Task, t.status = TaskStatus.Backlog →
        ∀ s l, filter_and_group_tasks tasks pf s = some l → t ∉ l)
    ∧ (∀ t ∈ tasks, t.status ≠ TaskStatus.Backlog →
        (pf = none ∨ pf = some t.priority) →
        (∃ l, filter_and_group_tasks tasks pf t.status = some l ∧ t ∈ l
          ∧ (tasks.count t = 1 → l.count t = 1))
        ∧ ∀ s, s ≠ t.status → ∀ l, filter_and_group_tasks tasks pf s = some l →
            t ∉ l) := by
  have hmem_raw : ∀ (t : Task) (s : TaskStatus) (l : List Task),
      filter_and_group_tasks tasks pf s = some l → t ∈ l →
      boardFilterPred pf t = true ∧ t.status = s := by
    intro t s l hl ht'
    rw [some_group_eq tasks pf s l hl] at ht'
    have hraw' := List.mem_mergeSort.mp ht'
    refine ⟨(List.mem_filter.mp (List.mem_filter.mp hraw').1).2, ?_⟩
    exact of_decide_eq_true (List.mem_filter.mp hraw').2
  refine ⟨?_, rfl, rfl, rfl, ?_, ?_, ?_⟩
  · have hgB : boardGroupRaw tasks pf TaskStatus.Backlog = [] := by
      rw [boardGroupRaw, List.filter_eq_nil_iff]
      intro a ha
      have hFa := (List.mem_filter.mp ha).2
      rw [boardFilterPred, Bool.and_eq_true] at hFa
      simp only [Bool.not_eq_true', decide_eq_false_iff_not] at hFa
      simp [hFa.2]
    simp [filter_and_group_tasks, hgB]
  · intro s l hl
    rw [some_group_eq tasks pf s l hl]
    exact sortByPriorityDesc_pairwise _
  · intro t htB s l hl ht'
    have hFa := (hmem_raw t s l hl ht').1
    rw [boardFilterPred, Bool.and_eq_true] at hFa
    simp only [Bool.not_eq_true', decide_eq_false_iff_not] at hFa
    exact hFa.2 htB
  · intro t hmem hnb hpm
    have hF : boardFilterPred pf t = true := by
      rcases hpm with h | h <;> simp [boardFilterPred, h, hnb]
    have hstat : decide (t.status = t.status) = true := by simp
    have hraw : t ∈ boardGroupRaw tasks pf t.status :=
      List.mem_filter.mpr ⟨List.mem_filter.mpr ⟨hmem, hF⟩, hstat⟩
    constructor
    · have hcond : t.status = TaskStatus.Todo ∨ t.status = TaskStatus.InProgress
          ∨ t.status = TaskStatus.Completed := by
        cases h : t.status
        · exact Or.inl rfl
        · exact Or.inr (Or.inl rfl)
        · exact Or.inr (Or.inr rfl)
        · exact absurd h hnb
      refine ⟨sortByPriorityDesc (boardGroupRaw tasks pf t.status), ?_, ?_, ?_⟩
      · simp [filter_and_group_tasks, hcond]
      · exact List.mem_mergeSort.mpr hraw
      · intro hcount
        have hperm : (sortByPriorityDesc (boardGroupRaw tasks pf t.status)).Perm
            (boardGroupRaw tasks pf t.status) :=
          List.mergeSort_perm _ priorityDescLe
        have h1 : List.count t ((tasks.filter (boardFilterPred pf)).filter
              fun u => decide (u.status = t.status)) =
            List.count t (tasks.filter (boardFilterPred pf)) :=
          List.count_filter (by simp)
        have h2 : List.count t (tasks.filter (boardFilterPred pf)) =
            List.count t tasks :=
          List.count_filter hF
        rw [hperm.count_eq t, boardGroupRaw, h1, h2, hcount]
    · intro s hs l hl ht'
      exact hs ((hmem_raw t s l hl ht').2.symm)

/-- Witness for C9 on a concrete one-task board: the `Backlog` column is
absent and the sample task shows up under its own status key. -/
theorem board_grouping_witness :
    filter_and_group_tasks [sampleTask] none TaskStatus.Backlog = none
    ∧ ∃ l, filter_and_group_tasks [sampleTask] none sampleTask.status = some l
        ∧ sampleTask ∈ l := by
  have h := board_grouping [sampleTask] none
  obtain ⟨⟨l, hl, hml, _⟩, _⟩ :=
    h.2.2.2.2.2.2 sampleTask (by decide) (by decide) (Or.inl rfl)
  exact ⟨h.1, l, hl, hml⟩

end RustTracker

